import Mathlib

/-!
Shallow embedding of the Windows keyboard key embedder handler
(shell/platform/windows/keyboard_key_embedder_handler.cc) and proofs about
its key-identity resolution, press-state machine, critical-key state
synchronization, event sequencing and pending-response ledger.

External collaborators (the static scan-code and virtual-code lookup tables,
the OS key-state query, the OS virtual-key-to-scan-code mapping, and the
dead-key resolution step) are modelled as an explicit environment record.
All machine integers are modelled as Nat; the only place where overflow can
matter is the 64-bit response-id counter, which is taken modulo two to the
sixty-four explicitly.
-/

namespace KeyboardEmbedder

/-! ### Platform constants (from windows.h and the handler source) -/

def WM_KEYDOWN : Nat := 0x0100
def WM_KEYUP : Nat := 0x0101
def WM_SYSKEYDOWN : Nat := 0x0104
def WM_SYSKEYUP : Nat := 0x0105
def VK_PROCESSKEY : Nat := 0xE5
def VK_CAPITAL : Nat := 0x14
def VK_NUMLOCK : Nat := 0x90
def VK_SCROLL : Nat := 0x91
def VK_LSHIFT : Nat := 0xA0
def VK_RSHIFT : Nat := 0xA1
def VK_LCONTROL : Nat := 0xA2
def VK_RCONTROL : Nat := 0xA3

def kStateMaskToggled : Nat := 0x01
def kStateMaskPressed : Nat := 0x80

def kCharacterCacheSize : Nat := 8

/-- Modelled from the spec: the class header (not under src) declares the
64-bit identifier value mask and the namespace planes; per the spec,
identifiers are value bits tagged with a namespace bit-plane (a platform
plane for Windows-synthesized ids, a Unicode plane for printable
fallbacks). The exact numeric values are irrelevant to every claim; we
fix a 32-bit value mask and put the Windows plane just above it, with the
Unicode plane at zero. -/
def valueMask : Nat := 0xFFFFFFFF

def unicodePlane : Nat := 0

def windowsPlane : Nat := 0x100000000

/-! ### External collaborators, as an environment record

The static lookup tables, the OS state query, the OS virtual-key to
scan-code mapping and the dead-key resolution step are external to the
core (spec section 1) and are modelled as injected data.
-/

structure Env where
  windowsToPhysicalMap : Nat → Option Nat
  scanCodeToLogicalMap : Nat → Option Nat
  windowsToLogicalMap : Nat → Option Nat
  /-- GetKeyState bitmask: bit 0 = toggled, bit 7 = pressed. -/
  getKeyState : Nat → Nat
  /-- MapVirtualKey with MAPVK_VK_TO_VSC. -/
  mapVirtualKey : Nat → Nat
  /-- The dead-key resolution step UndeadChar, supplied by a collaborator. -/
  undeadChar : Nat → Nat

/-! ### Character codec -/

/-- Get some bits of the char, from the start-th bit from the right
(excluded) to the end-th bit from the right (included). -/
def _GetBit (ch : Nat) (start stop : Nat) : Nat :=
  (ch >>> stop) &&& ((1 <<< (start - stop)) - 1)

/-- ConvertChar32ToUtf8, as a byte list (the C++ std::string content). -/
def ConvertChar32ToUtf8 (ch : Nat) : List Nat :=
  if ch ≤ 0x007F then
    [ch]
  else if ch ≤ 0x07FF then
    [0b11000000 + _GetBit ch 11 6,
     0b10000000 + _GetBit ch 6 0]
  else if ch ≤ 0xFFFF then
    [0b11100000 + _GetBit ch 16 12,
     0b10000000 + _GetBit ch 12 6,
     0b10000000 + _GetBit ch 6 0]
  else
    [0b11110000 + _GetBit ch 21 18,
     0b10000000 + _GetBit ch 18 12,
     0b10000000 + _GetBit ch 12 6,
     0b10000000 + _GetBit ch 6 0]

/-- ConvertUtf32ToUtf8_ fills the character cache: the zero code point
yields the empty C string, otherwise the UTF-8 bytes of the code point
(none of which is zero for nonzero input, so the byte list is exactly the
C string content). -/
def ConvertUtf32ToUtf8_ (ch : Nat) : List Nat :=
  if ch = 0 then [] else ConvertChar32ToUtf8 ch

/-! ### Key identity resolver -/

def isEasciiPrintable (codeUnit : Nat) : Bool :=
  (codeUnit ≤ 0x7f && codeUnit ≥ 0x20) || (codeUnit ≤ 0xff && codeUnit ≥ 0x80)

/-- Converts upper letters to lower letters in ASCII and extended ASCII,
and returns as-is otherwise. Independent of locale. -/
def toLower (n : Nat) : Nat :=
  if n ≥ 0x41 ∧ n ≤ 0x5a then n - 0x41 + 0x61
  else if n ≥ 0xc0 ∧ n ≤ 0xde ∧ n ≠ 0xf7 then n - 0xc0 + 0xe0
  else n

/-- Transform scancodes sent by windows to scancodes written in the
Chromium spec: low byte is the scan code, with the 0xe000 bit when
extended. -/
def normalizeScancode (windowsScanCode : Nat) (extended : Bool) : Nat :=
  (windowsScanCode &&& 0xff) ||| (if extended then 0xe000 else 0)

def ApplyPlaneToId (id plane : Nat) : Nat :=
  (id &&& valueMask) ||| plane

def GetPhysicalKey (env : Env) (scancode : Nat) (extended : Bool) : Nat :=
  let chromiumScancode := normalizeScancode scancode extended
  match env.windowsToPhysicalMap chromiumScancode with
  | some result => result
  | none => ApplyPlaneToId scancode windowsPlane

def GetLogicalKey (env : Env) (key : Nat) (extended : Bool) (scancode : Nat) : Nat :=
  if key = VK_PROCESSKEY then VK_PROCESSKEY
  else
    match env.scanCodeToLogicalMap (normalizeScancode scancode extended) with
    | some numpad => numpad
    | none =>
      match env.windowsToLogicalMap key with
      | some logical => logical
      | none =>
        if isEasciiPrintable key then ApplyPlaneToId (toLower key) unicodePlane
        else ApplyPlaneToId (toLower key) windowsPlane

/-! ### Finite maps as association lists

pressingRecords_ and critical_keys_ are std::map instances: at most one
entry per key, with find, operator-square-brackets (insert or assign) and
erase. critical_keys_ is iterated in increasing key order; we keep the
association lists in that order and prove key uniqueness where needed.
-/

def alistFind {α : Type} (m : List (Nat × α)) (k : Nat) : Option α :=
  match m with
  | [] => none
  | (k1, v) :: rest => if k1 = k then some v else alistFind rest k

/-- std::map operator-square-brackets: assign if present, append if absent. -/
def alistSet {α : Type} (m : List (Nat × α)) (k : Nat) (v : α) : List (Nat × α) :=
  match m with
  | [] => [(k, v)]
  | (k1, v1) :: rest =>
    if k1 = k then (k, v) :: rest else (k1, v1) :: alistSet rest k v

/-- std::map erase of the entry found for a key. -/
def alistErase {α : Type} (m : List (Nat × α)) (k : Nat) : List (Nat × α) :=
  match m with
  | [] => []
  | (k1, v1) :: rest =>
    if k1 = k then alistErase rest k else (k1, v1) :: alistErase rest k

/-- Each key owns at most one entry, as in std::map. -/
def NodupKeys {α : Type} (m : List (Nat × α)) : Prop :=
  (m.map Prod.fst).Nodup

instance {α : Type} (m : List (Nat × α)) : Decidable (NodupKeys m) :=
  inferInstanceAs (Decidable (m.map Prod.fst).Nodup)

/-! ### Data model -/

inductive FlutterKeyEventType where
  | kFlutterKeyEventTypeUp
  | kFlutterKeyEventTypeDown
  | kFlutterKeyEventTypeRepeat
deriving DecidableEq

export FlutterKeyEventType (kFlutterKeyEventTypeUp kFlutterKeyEventTypeDown
  kFlutterKeyEventTypeRepeat)

/-- One dispatched event record. The timestamp and the constant size
marker are omitted (real time is not representable here and no claim
mentions them). The callback field is the acknowledgment: none models a
null FlutterKeyEventCallback (fire-and-forget), some id models the
HandleResponse trampoline carrying the pending-response entry for id. -/
structure FlutterKeyEvent where
  type : FlutterKeyEventType
  physical : Nat
  logical : Nat
  character : List Nat
  synthesized : Bool
  callback : Option Nat
deriving DecidableEq

/-- Critical key record. -/
structure CriticalKey where
  physical_key : Nat
  logical_key : Nat
  check_pressed : Bool
  check_toggled : Bool
  toggled_on : Bool
deriving DecidableEq

/-- The handler state: the press-state table, the critical-key registry
(in increasing virtual-key order, as iterated by std::map), the response
id counter and the pending-response ledger (the set of in-flight response
ids; the stored completion callbacks are modelled by the ids that key
them). -/
structure HandlerState where
  pressingRecords : List (Nat × Nat)
  critical_keys : List (Nat × CriticalKey)
  response_id : Nat
  pending_responses : List Nat
deriving DecidableEq

def SynthesizeSimpleEvent (type : FlutterKeyEventType)
    (physical logical : Nat) (character : List Nat) : FlutterKeyEvent :=
  { type := type, physical := physical, logical := logical,
    character := character, synthesized := true, callback := none }

/-! ### Critical-key registry updates and synchronization passes -/

def UpdateLastSeenCritialKey (criticals : List (Nat × CriticalKey))
    (virtual_key physical_key logical_key : Nat) : List (Nat × CriticalKey) :=
  match criticals with
  | [] => []
  | (vk, info) :: rest =>
    if vk = virtual_key then
      (vk, { info with physical_key := physical_key,
                       logical_key := logical_key }) :: rest
    else
      (vk, info) :: UpdateLastSeenCritialKey rest virtual_key physical_key logical_key

/-- One iteration of the toggled-state synchronization loop, for the
critical key with virtual code vk. Returns the updated record, the
updated press-state table and the synthesized events, in dispatch
order. -/
def syncToggledKey (env : Env) (this_virtual_key : Nat) (is_down_event : Bool)
    (records : List (Nat × Nat)) (virtual_key : Nat) (key_info : CriticalKey) :
    CriticalKey × List (Nat × Nat) × List FlutterKeyEvent :=
  if key_info.physical_key = 0 then
    (key_info, records, [])
  else if key_info.check_toggled then
    let state := env.getKeyState virtual_key
    let should_toggled := (state &&& kStateMaskToggled) != 0
    let flipped :=
      if virtual_key = this_virtual_key ∧ is_down_event then !key_info.toggled_on
      else key_info.toggled_on
    if flipped ≠ should_toggled then
      let upEvents :=
        if (alistFind records key_info.physical_key).isSome then
          [SynthesizeSimpleEvent kFlutterKeyEventTypeUp key_info.physical_key
            key_info.logical_key []]
        else []
      ({ key_info with toggled_on := should_toggled },
       alistSet records key_info.physical_key key_info.logical_key,
       upEvents ++ [SynthesizeSimpleEvent kFlutterKeyEventTypeDown
         key_info.physical_key key_info.logical_key []])
    else
      ({ key_info with toggled_on := should_toggled }, records, [])
  else
    (key_info, records, [])

def SynchronizeCritialToggledStates (env : Env) (this_virtual_key : Nat)
    (is_down_event : Bool) :
    List (Nat × CriticalKey) → List (Nat × Nat) →
    List (Nat × CriticalKey) × List (Nat × Nat) × List FlutterKeyEvent
  | [], records => ([], records, [])
  | (vk, info) :: rest, records =>
    let step := syncToggledKey env this_virtual_key is_down_event records vk info
    let tail := SynchronizeCritialToggledStates env this_virtual_key is_down_event
      rest step.2.1
    ((vk, step.1) :: tail.1, tail.2.1, step.2.2 ++ tail.2.2)

/-- One iteration of the pressed-state synchronization loop. The critical
key record itself is not modified by this pass. -/
def syncPressedKey (env : Env) (this_virtual_key : Nat)
    (pressed_state_will_change : Bool) (records : List (Nat × Nat))
    (virtual_key : Nat) (key_info : CriticalKey) :
    List (Nat × Nat) × List FlutterKeyEvent :=
  if key_info.physical_key = 0 then
    (records, [])
  else if key_info.check_pressed then
    let state := env.getKeyState virtual_key
    let recorded_pressed := (alistFind records key_info.physical_key).isSome
    let should_pressed0 := (state &&& kStateMaskPressed) != 0
    let should_pressed :=
      if virtual_key = this_virtual_key ∧ pressed_state_will_change then
        !should_pressed0
      else should_pressed0
    if recorded_pressed ≠ should_pressed then
      (if recorded_pressed then alistErase records key_info.physical_key
       else alistSet records key_info.physical_key key_info.logical_key,
       [SynthesizeSimpleEvent
         (if recorded_pressed then kFlutterKeyEventTypeUp
          else kFlutterKeyEventTypeDown)
         key_info.physical_key key_info.logical_key []])
    else
      (records, [])
  else
    (records, [])

def SynchronizeCritialPressedStates (env : Env) (this_virtual_key : Nat)
    (pressed_state_will_change : Bool) :
    List (Nat × CriticalKey) → List (Nat × Nat) →
    List (Nat × Nat) × List FlutterKeyEvent
  | [], records => (records, [])
  | (vk, info) :: rest, records =>
    let step := syncPressedKey env this_virtual_key pressed_state_will_change
      records vk info
    let tail := SynchronizeCritialPressedStates env this_virtual_key
      pressed_state_will_change rest step.1
    (tail.1, step.2 ++ tail.2)

/-! ### Classification and the press-state machine -/

/-- The classification outcome of KeyboardHookImpl before the primary
event is assembled: the event type, the resulting logical id, what
pressingRecords_ at the physical key should be after the call (0 for
removal), and the character bytes. none models the early callback(true)
returns (duplicate down, stale up). -/
structure Classified where
  type : FlutterKeyEventType
  result_logical_key : Nat
  eventual_logical_record : Nat
  character_bytes : List Nat
deriving DecidableEq

def classify (env : Env) (records : List (Nat × Nat))
    (key scancode action character : Nat) (extended was_down : Bool) :
    Option Classified :=
  let logical_key := GetLogicalKey env key extended scancode
  let physical_key := GetPhysicalKey env scancode extended
  let is_physical_down := action == WM_KEYDOWN || action == WM_SYSKEYDOWN
  let found := alistFind records physical_key
  let had_record := found.isSome
  let last_logical_record := found.getD 0
  let ch := env.undeadChar character
  if is_physical_down then
    if had_record then
      if was_down then
        some { type := kFlutterKeyEventTypeRepeat,
               result_logical_key := last_logical_record,
               eventual_logical_record := last_logical_record,
               character_bytes := ConvertUtf32ToUtf8_ ch }
      else none
    else
      some { type := kFlutterKeyEventTypeDown,
             result_logical_key := logical_key,
             eventual_logical_record := logical_key,
             character_bytes := ConvertUtf32ToUtf8_ ch }
  else
    if last_logical_record = 0 then none
    else
      some { type := kFlutterKeyEventTypeUp,
             result_logical_key := last_logical_record,
             eventual_logical_record := 0,
             character_bytes := [] }

inductive HookResult where
  /-- The caller-supplied callback was invoked exactly once, immediately,
  with handled = true, and nothing was dispatched for this input by
  KeyboardHookImpl. -/
  | absorbed
  /-- A primary event was dispatched; the caller-supplied callback was
  stored in the pending-response ledger under the given response id, to
  be invoked on acknowledgment. -/
  | dispatched (response_id : Nat)
deriving DecidableEq

structure HookOutput where
  state : HandlerState
  events : List FlutterKeyEvent
  result : HookResult
  /-- The condition of the assert guarding the final removal from
  pressingRecords_ (line 258): true unless the entry to be erased is
  already missing. On every other path it is true. -/
  assert_ok : Bool
deriving DecidableEq

/-- The early-return output of KeyboardHookImpl: nothing sent, nothing
mutated, the callback invoked with handled = true. -/
def absorbedOutput (s : HandlerState) : HookOutput :=
  { state := s, events := [], result := .absorbed, assert_ok := true }

/-- The critical-key registry after the last-seen update and the toggle
synchronization pass of one dispatched input, with its press-state table
and synthesized events (the locals criticals0 and the toggle pass result
inside KeyboardHookImpl). -/
def dpToggle (env : Env) (s : HandlerState) (key physical_key : Nat)
    (c : Classified) :
    List (Nat × CriticalKey) × List (Nat × Nat) × List FlutterKeyEvent :=
  SynchronizeCritialToggledStates env key (c.type == kFlutterKeyEventTypeDown)
    (UpdateLastSeenCritialKey s.critical_keys key physical_key
      c.result_logical_key)
    s.pressingRecords

/-- The press-state table and synthesized events after the pressed
synchronization pass of one dispatched input. -/
def dpPressed (env : Env) (s : HandlerState) (key physical_key : Nat)
    (c : Classified) : List (Nat × Nat) × List FlutterKeyEvent :=
  SynchronizeCritialPressedStates env key
    (c.type != kFlutterKeyEventTypeRepeat)
    (dpToggle env s key physical_key c).1
    (dpToggle env s key physical_key c).2.1

/-- The primary event record for one dispatched input. -/
def primaryEvent (s : HandlerState) (physical_key : Nat) (c : Classified) :
    FlutterKeyEvent :=
  { type := c.type, physical := physical_key,
    logical := c.result_logical_key, character := c.character_bytes,
    synthesized := false, callback := some ((s.response_id + 1) % 2 ^ 64) }

/-- The tail of KeyboardHookImpl once a primary event has been classified
and has passed the IME filter: update the last-seen critical key, run the
two synchronization passes, apply the eventual press-state record, then
assemble and dispatch the primary event with a fresh response id. -/
def dispatchPrimary (env : Env) (s : HandlerState) (key physical_key : Nat)
    (c : Classified) : HookOutput :=
  { state :=
      { pressingRecords :=
          if c.eventual_logical_record ≠ 0 then
            alistSet (dpPressed env s key physical_key c).1 physical_key
              c.eventual_logical_record
          else
            alistErase (dpPressed env s key physical_key c).1 physical_key,
        critical_keys := (dpToggle env s key physical_key c).1,
        response_id := (s.response_id + 1) % 2 ^ 64,
        pending_responses :=
          s.pending_responses ++ [(s.response_id + 1) % 2 ^ 64] },
    events := (dpToggle env s key physical_key c).2.2 ++
      (dpPressed env s key physical_key c).2 ++ [primaryEvent s physical_key c],
    result := .dispatched ((s.response_id + 1) % 2 ^ 64),
    assert_ok := decide (c.eventual_logical_record ≠ 0 ∨
      (alistFind (dpPressed env s key physical_key c).1 physical_key).isSome) }

def KeyboardHookImpl (env : Env) (s : HandlerState)
    (key scancode action character : Nat) (extended was_down : Bool) :
    HookOutput :=
  match classify env s.pressingRecords key scancode action character extended was_down with
  | none => absorbedOutput s
  | some c =>
    if c.result_logical_key = VK_PROCESSKEY then absorbedOutput s
    else dispatchPrimary env s key (GetPhysicalKey env scancode extended) c

/-- The neutral zero-identifier event sent by the outer guard when no
event was produced for a raw input. -/
def emptyEvent : FlutterKeyEvent :=
  { type := kFlutterKeyEventTypeDown, physical := 0, logical := 0,
    character := [], synthesized := false, callback := none }

/-- The outer entry point: sent_any_events is reset before the impl runs
and is set by every SendEvent, so after the impl it holds exactly when
the event list is nonempty; if it is not set, the neutral event is
dispatched with a null callback. -/
def KeyboardHook (env : Env) (s : HandlerState)
    (key scancode action character : Nat) (extended was_down : Bool) :
    HookOutput :=
  let out := KeyboardHookImpl env s key scancode action character extended was_down
  if out.events.isEmpty then { out with events := [emptyEvent] } else out

/-- HandleResponse for a pending response id: the stored trampoline
erases the ledger entry for that id if present, then invokes the original
caller-supplied callback exactly once. The returned number counts the
invocations of that callback (always one). -/
def HandleResponse (s : HandlerState) (response_id : Nat) : HandlerState × Nat :=
  ({ s with pending_responses := s.pending_responses.filter (fun i => i ≠ response_id) },
   1)

/-! ### Construction -/

def createCheckedKey (env : Env) (virtual_key : Nat)
    (extended check_pressed check_toggled : Bool) : CriticalKey :=
  let scan_code := env.mapVirtualKey virtual_key
  { physical_key := GetPhysicalKey env scan_code extended,
    logical_key := GetLogicalKey env virtual_key extended scan_code,
    check_pressed := check_pressed || check_toggled,
    check_toggled := check_toggled,
    toggled_on :=
      if check_toggled then (env.getKeyState virtual_key &&& kStateMaskToggled) != 0
      else false }

/-- InitCriticalKeys: the fixed registry, listed in increasing
virtual-key order as std::map iterates it. -/
def InitCriticalKeys (env : Env) : List (Nat × CriticalKey) :=
  [(VK_CAPITAL, createCheckedKey env VK_CAPITAL false true true),
   (VK_NUMLOCK, createCheckedKey env VK_NUMLOCK true true true),
   (VK_SCROLL, createCheckedKey env VK_SCROLL false true true),
   (VK_LSHIFT, createCheckedKey env VK_LSHIFT false true false),
   (VK_RSHIFT, createCheckedKey env VK_RSHIFT false true false),
   (VK_LCONTROL, createCheckedKey env VK_LCONTROL false true false),
   (VK_RCONTROL, createCheckedKey env VK_RCONTROL true true false)]

/-- The constructor: response_id_ starts at 1, the tables start empty,
and InitCriticalKeys fills the registry. -/
def initialState (env : Env) : HandlerState :=
  { pressingRecords := [],
    critical_keys := InitCriticalKeys env,
    response_id := 1,
    pending_responses := [] }

/-! ### Reference definitions and concrete environments -/

/-- The standard UTF-8 encoding of a Unicode code point, written from the
spec wording as the reference the character codec is compared against. -/
def utf8EncodeStd (c : Nat) : List Nat :=
  if c < 0x80 then [c]
  else if c < 0x800 then
    [0xC0 ||| (c >>> 6), 0x80 ||| (c &&& 0x3F)]
  else if c < 0x10000 then
    [0xE0 ||| (c >>> 12), 0x80 ||| ((c >>> 6) &&& 0x3F), 0x80 ||| (c &&& 0x3F)]
  else
    [0xF0 ||| (c >>> 18), 0x80 ||| ((c >>> 12) &&& 0x3F),
     0x80 ||| ((c >>> 6) &&& 0x3F), 0x80 ||| (c &&& 0x3F)]

/-- A minimal concrete environment: all lookup tables miss, the OS
reports every key untoggled and unpressed, virtual keys map to scan code
zero and dead-key resolution is the identity. -/
def envSimple : Env :=
  { windowsToPhysicalMap := fun _ => none,
    scanCodeToLogicalMap := fun _ => none,
    windowsToLogicalMap := fun _ => none,
    getKeyState := fun _ => 0,
    mapVirtualKey := fun _ => 0,
    undeadChar := fun ch => ch }

/-- Like envSimple, but the OS reports caps lock as both toggled and
pressed (GetKeyState bit 0 and bit 7 set). -/
def envCaps81 : Env :=
  { envSimple with
    getKeyState := fun vk => if vk = VK_CAPITAL then 0x81 else 0 }

/-! ### Claim statements as named properties -/

/-- Press-state table invariant for one processed raw input: key
uniqueness is preserved; a primary Down creates the entry with the
freshly resolved logical id; a Repeat leaves the entry with its recorded
logical id, which is also the id put on the event; a primary Up removes
the entry; an absorbed or IME-filtered input leaves the whole state
untouched. -/
def PressStateStepProperty (env : Env) (s : HandlerState)
    (key scancode action character : Nat) (extended was_down : Bool) : Prop :=
  NodupKeys (KeyboardHookImpl env s key scancode action character extended
    was_down).state.pressingRecords ∧
  (∀ c, classify env s.pressingRecords key scancode action character extended
      was_down = some c →
    c.result_logical_key ≠ VK_PROCESSKEY →
    ((c.type = kFlutterKeyEventTypeDown →
        alistFind (KeyboardHookImpl env s key scancode action character extended
            was_down).state.pressingRecords
          (GetPhysicalKey env scancode extended) =
          some (GetLogicalKey env key extended scancode)) ∧
     (c.type = kFlutterKeyEventTypeRepeat →
        alistFind s.pressingRecords (GetPhysicalKey env scancode extended) =
          some c.result_logical_key ∧
        alistFind (KeyboardHookImpl env s key scancode action character extended
            was_down).state.pressingRecords
          (GetPhysicalKey env scancode extended) = some c.result_logical_key) ∧
     (c.type = kFlutterKeyEventTypeUp →
        alistFind (KeyboardHookImpl env s key scancode action character extended
            was_down).state.pressingRecords
          (GetPhysicalKey env scancode extended) = none))) ∧
  ((classify env s.pressingRecords key scancode action character extended
      was_down = none ∨
    ∃ c, classify env s.pressingRecords key scancode action character extended
      was_down = some c ∧ c.result_logical_key = VK_PROCESSKEY) →
    (KeyboardHookImpl env s key scancode action character extended
      was_down).state = s)

/-- Toggle resynchronization behavior on a caps-lock keydown whose
tracked toggle, after the anticipatory flip, disagrees with the true OS
toggle state: the toggle pass emits exactly (an Up for caps lock if it is
recorded pressed, then) a Down for caps lock; those come before the
primary Down; afterwards caps lock is recorded pressed and the tracked
toggle equals the true OS toggle bit. -/
def CapsResyncProperty (env : Env) (s : HandlerState)
    (scancode action character : Nat) (extended was_down : Bool) : Prop :=
  ∃ pressedEvents,
    (KeyboardHookImpl env s VK_CAPITAL scancode action character extended
        was_down).events =
      (SynchronizeCritialToggledStates env VK_CAPITAL true
        (UpdateLastSeenCritialKey s.critical_keys VK_CAPITAL
          (GetPhysicalKey env scancode extended)
          (GetLogicalKey env VK_CAPITAL extended scancode))
        s.pressingRecords).2.2 ++
      pressedEvents ++
      [{ type := kFlutterKeyEventTypeDown,
         physical := GetPhysicalKey env scancode extended,
         logical := GetLogicalKey env VK_CAPITAL extended scancode,
         character := ConvertUtf32ToUtf8_ (env.undeadChar character),
         synthesized := false,
         callback := some ((s.response_id + 1) % 2 ^ 64) }] ∧
    (SynchronizeCritialToggledStates env VK_CAPITAL true
        (UpdateLastSeenCritialKey s.critical_keys VK_CAPITAL
          (GetPhysicalKey env scancode extended)
          (GetLogicalKey env VK_CAPITAL extended scancode))
        s.pressingRecords).2.2.filter
      (fun e => e.physical == GetPhysicalKey env scancode extended) =
      (if (alistFind s.pressingRecords
            (GetPhysicalKey env scancode extended)).isSome then
         [SynthesizeSimpleEvent kFlutterKeyEventTypeUp
           (GetPhysicalKey env scancode extended)
           (GetLogicalKey env VK_CAPITAL extended scancode) []]
       else []) ++
      [SynthesizeSimpleEvent kFlutterKeyEventTypeDown
        (GetPhysicalKey env scancode extended)
        (GetLogicalKey env VK_CAPITAL extended scancode) []] ∧
    alistFind (KeyboardHookImpl env s VK_CAPITAL scancode action character
        extended was_down).state.pressingRecords
      (GetPhysicalKey env scancode extended) =
      some (GetLogicalKey env VK_CAPITAL extended scancode) ∧
    ∃ cap1,
      alistFind (KeyboardHookImpl env s VK_CAPITAL scancode action character
          extended was_down).state.critical_keys VK_CAPITAL = some cap1 ∧
      cap1.toggled_on =
        ((env.getKeyState VK_CAPITAL &&& kStateMaskToggled) != 0)

/-- Ledger invariant: the response counter is positive and every pending
id is at most the counter, so the next id assigned is fresh. -/
def LedgerInv (s : HandlerState) : Prop :=
  1 ≤ s.response_id ∧ ∀ i ∈ s.pending_responses, i ≤ s.response_id

/-- A concrete reachable state: the handler state after one ordinary
keydown of virtual key 0x41 at scan code 0x1E under envSimple, which
leaves its physical key recorded as pressed. -/
def sA : HandlerState :=
  (KeyboardHookImpl envSimple (initialState envSimple) 0x41 0x1E WM_KEYDOWN
    97 false false).state

/-- The handler state after a caps-lock keydown under envCaps81 (the OS
reports caps lock toggled and pressed, so the down itself synthesizes
nothing). -/
def sCaps : HandlerState :=
  (KeyboardHookImpl envCaps81 (initialState envSimple) VK_CAPITAL 0x3A
    WM_KEYDOWN 0 false false).state

/-! ### Association-list laws -/

theorem alistFind_set_self {α : Type} (m : List (Nat × α)) (k : Nat) (v : α) :
    alistFind (alistSet m k v) k = some v := by
  induction m with
  | nil => simp [alistSet, alistFind]
  | cons p rest ih =>
    obtain ⟨k1, v1⟩ := p
    by_cases h : k1 = k
    · simp [alistSet, h, alistFind]
    · simp [alistSet, h, alistFind, ih]

theorem alistFind_set_ne {α : Type} (m : List (Nat × α)) (k p : Nat) (v : α)
    (hp : p ≠ k) :
    alistFind (alistSet m k v) p = alistFind m p := by
  induction m with
  | nil => simp [alistSet, alistFind, Ne.symm hp]
  | cons q rest ih =>
    obtain ⟨k1, v1⟩ := q
    by_cases h : k1 = k
    · subst h
      simp [alistSet, alistFind, Ne.symm hp]
    · by_cases h2 : k1 = p
      · simp [alistSet, h, alistFind, h2, hp]
      · simp [alistSet, h, alistFind, h2, ih]

theorem alistFind_erase_self {α : Type} (m : List (Nat × α)) (k : Nat) :
    alistFind (alistErase m k) k = none := by
  induction m with
  | nil => simp [alistErase, alistFind]
  | cons q rest ih =>
    obtain ⟨k1, v1⟩ := q
    by_cases h : k1 = k
    · simpa [alistErase, h] using ih
    · simpa [alistErase, alistFind, h] using ih

theorem alistFind_erase_ne {α : Type} (m : List (Nat × α)) (k p : Nat)
    (hp : p ≠ k) :
    alistFind (alistErase m k) p = alistFind m p := by
  induction m with
  | nil => simp [alistErase, alistFind]
  | cons q rest ih =>
    obtain ⟨k1, v1⟩ := q
    by_cases h : k1 = k
    · subst h
      simp [alistErase, alistFind, Ne.symm hp, ih]
    · by_cases h2 : k1 = p
      · simp [alistErase, alistFind, h, h2, hp]
      · simp [alistErase, alistFind, h, h2, ih]

theorem alistFind_none_iff {α : Type} (m : List (Nat × α)) (k : Nat) :
    alistFind m k = none ↔ k ∉ m.map Prod.fst := by
  induction m with
  | nil => simp [alistFind]
  | cons q rest ih =>
    obtain ⟨k1, v1⟩ := q
    by_cases h : k1 = k
    · subst h
      simp [alistFind]
    · simp only [alistFind, if_neg h, List.map_cons, List.mem_cons, ih]
      constructor
      · intro hnone
        rintro (rfl | hin)
        · exact h rfl
        · exact hnone hin
      · intro hmem hin
        exact hmem (Or.inr hin)

theorem alistSet_keys_mem {α : Type} (m : List (Nat × α)) (k : Nat) (v : α)
    (j : Nat) :
    j ∈ (alistSet m k v).map Prod.fst ↔ j ∈ m.map Prod.fst ∨ j = k := by
  induction m with
  | nil => simp [alistSet]
  | cons q rest ih =>
    obtain ⟨k1, v1⟩ := q
    by_cases h : k1 = k
    · subst h
      have e : alistSet ((k1, v1) :: rest) k1 v = (k1, v) :: rest := by
        simp [alistSet]
      rw [e]
      simp only [List.map_cons, List.mem_cons]
      constructor
      · rintro (rfl | hin)
        · exact Or.inr rfl
        · exact Or.inl (Or.inr hin)
      · rintro ((rfl | hin) | rfl)
        · exact Or.inl rfl
        · exact Or.inr hin
        · exact Or.inl rfl
    · have e : alistSet ((k1, v1) :: rest) k v = (k1, v1) :: alistSet rest k v := by
        simp [alistSet, h]
      rw [e]
      simp only [List.map_cons, List.mem_cons, ih]
      constructor
      · rintro (rfl | (hin | rfl))
        · exact Or.inl (Or.inl rfl)
        · exact Or.inl (Or.inr hin)
        · exact Or.inr rfl
      · rintro ((rfl | hin) | rfl)
        · exact Or.inl rfl
        · exact Or.inr (Or.inl hin)
        · exact Or.inr (Or.inr rfl)

theorem nodupKeys_set {α : Type} (m : List (Nat × α)) (k : Nat) (v : α)
    (h : NodupKeys m) : NodupKeys (alistSet m k v) := by
  induction m with
  | nil => simp [alistSet, NodupKeys]
  | cons q rest ih =>
    obtain ⟨k1, v1⟩ := q
    simp only [NodupKeys, List.map_cons, List.nodup_cons] at h
    by_cases hk : k1 = k
    · subst hk
      have e : alistSet ((k1, v1) :: rest) k1 v = (k1, v) :: rest := by
        simp [alistSet]
      rw [e]
      simp only [NodupKeys, List.map_cons, List.nodup_cons]
      exact h
    · have h2 := ih h.2
      have e : alistSet ((k1, v1) :: rest) k v = (k1, v1) :: alistSet rest k v := by
        simp [alistSet, hk]
      rw [e]
      simp only [NodupKeys, List.map_cons, List.nodup_cons]
      refine ⟨?_, h2⟩
      rw [alistSet_keys_mem]
      rintro (hin | rfl)
      · exact h.1 hin
      · exact hk rfl

theorem alistErase_keys_sublist {α : Type} (m : List (Nat × α)) (k : Nat) :
    List.Sublist ((alistErase m k).map Prod.fst) (m.map Prod.fst) := by
  induction m with
  | nil => simp [alistErase]
  | cons q rest ih =>
    obtain ⟨k1, v1⟩ := q
    by_cases h : k1 = k
    · simpa [alistErase, h] using List.Sublist.cons k1 ih
    · simpa [alistErase, h] using List.Sublist.cons₂ k1 ih

theorem nodupKeys_erase {α : Type} (m : List (Nat × α)) (k : Nat)
    (h : NodupKeys m) : NodupKeys (alistErase m k) := by
  exact List.Nodup.sublist (alistErase_keys_sublist m k) h

/-! ### Classification inversion -/

theorem classify_cases (env : Env) (records : List (Nat × Nat))
    (key scancode action character : Nat) (extended was_down : Bool)
    (c : Classified)
    (hc : classify env records key scancode action character extended was_down =
      some c) :
    (c.type = kFlutterKeyEventTypeDown ∧
      alistFind records (GetPhysicalKey env scancode extended) = none ∧
      c.result_logical_key = GetLogicalKey env key extended scancode ∧
      c.eventual_logical_record = GetLogicalKey env key extended scancode ∧
      c.character_bytes = ConvertUtf32ToUtf8_ (env.undeadChar character)) ∨
    (c.type = kFlutterKeyEventTypeRepeat ∧ ∃ v,
      alistFind records (GetPhysicalKey env scancode extended) = some v ∧
      c.result_logical_key = v ∧ c.eventual_logical_record = v ∧
      c.character_bytes = ConvertUtf32ToUtf8_ (env.undeadChar character)) ∨
    (c.type = kFlutterKeyEventTypeUp ∧ ∃ v,
      alistFind records (GetPhysicalKey env scancode extended) = some v ∧
      v ≠ 0 ∧ c.result_logical_key = v ∧ c.eventual_logical_record = 0 ∧
      c.character_bytes = []) := by
  simp only [classify] at hc
  rcases hfound : alistFind records (GetPhysicalKey env scancode extended) with
    _ | v
  · rw [hfound] at hc
    simp only [Option.isSome_none, Option.getD_none] at hc
    by_cases hd : (action == WM_KEYDOWN || action == WM_SYSKEYDOWN) = true
    · rw [if_pos hd, if_neg (by simp)] at hc
      cases hc
      left
      exact ⟨rfl, rfl, rfl, rfl, rfl⟩
    · rw [if_neg hd] at hc
      exact absurd hc (by simp)
  · rw [hfound] at hc
    simp only [Option.isSome_some, Option.getD_some] at hc
    by_cases hd : (action == WM_KEYDOWN || action == WM_SYSKEYDOWN) = true
    · rw [if_pos hd, if_true] at hc
      by_cases hw : was_down = true
      · rw [if_pos hw] at hc
        cases hc
        right; left
        exact ⟨rfl, v, rfl, rfl, rfl, rfl⟩
      · rw [if_neg hw] at hc
        exact absurd hc (by simp)
    · rw [if_neg hd] at hc
      by_cases hv : v = 0
      · rw [if_pos hv] at hc
        exact absurd hc (by simp)
      · rw [if_neg hv] at hc
        cases hc
        right; right
        exact ⟨rfl, v, rfl, hv, rfl, rfl, rfl⟩

/-! ### Synchronization pass laws -/

theorem filter_eq_nil_of {α : Type} (l : List α) (p : α → Bool)
    (h : ∀ e ∈ l, p e = false) : l.filter p = [] := by
  induction l with
  | nil => rfl
  | cons a rest ih =>
    have ha := h a (by simp)
    simp [List.filter, ha, ih (fun e he => h e (by simp [he]))]

theorem syncToggledKey_info_fields (env : Env) (tvk : Nat) (d : Bool)
    (records : List (Nat × Nat)) (vk : Nat) (info : CriticalKey) :
    (syncToggledKey env tvk d records vk info).1.physical_key = info.physical_key ∧
    (syncToggledKey env tvk d records vk info).1.logical_key = info.logical_key ∧
    (syncToggledKey env tvk d records vk info).1.check_pressed = info.check_pressed ∧
    (syncToggledKey env tvk d records vk info).1.check_toggled = info.check_toggled := by
  simp only [syncToggledKey]
  repeat' split
  all_goals exact ⟨rfl, rfl, rfl, rfl⟩

theorem syncToggledKey_events (env : Env) (tvk : Nat) (d : Bool)
    (records : List (Nat × Nat)) (vk : Nat) (info : CriticalKey) :
    ∀ e ∈ (syncToggledKey env tvk d records vk info).2.2,
      e.physical = info.physical_key ∧ e.synthesized = true := by
  intro e he
  simp only [syncToggledKey] at he
  repeat' split at he
  all_goals
    simp only [List.mem_append, List.mem_singleton, List.not_mem_nil,
      false_or, or_false] at he
  all_goals first
    | (rcases he with rfl | rfl <;> exact ⟨rfl, rfl⟩)
    | (subst he; exact ⟨rfl, rfl⟩)
    | cases he
    | exact ⟨rfl, rfl⟩

theorem syncToggledKey_records_ne (env : Env) (tvk : Nat) (d : Bool)
    (records : List (Nat × Nat)) (vk : Nat) (info : CriticalKey) (p : Nat)
    (hp : p ≠ info.physical_key) :
    alistFind (syncToggledKey env tvk d records vk info).2.1 p =
      alistFind records p := by
  simp only [syncToggledKey]
  repeat' split
  all_goals first
    | rfl
    | exact alistFind_set_ne _ _ _ _ hp

theorem syncToggledKey_nodup (env : Env) (tvk : Nat) (d : Bool)
    (records : List (Nat × Nat)) (vk : Nat) (info : CriticalKey)
    (h : NodupKeys records) :
    NodupKeys (syncToggledKey env tvk d records vk info).2.1 := by
  simp only [syncToggledKey]
  repeat' split
  all_goals first | exact h | exact nodupKeys_set _ _ _ h

theorem syncToggledKey_target (env : Env) (tvk : Nat)
    (records : List (Nat × Nat)) (info : CriticalKey)
    (hpk : info.physical_key ≠ 0) (hct : info.check_toggled = true)
    (hmis : ¬((!info.toggled_on) =
      ((env.getKeyState tvk &&& kStateMaskToggled) != 0))) :
    syncToggledKey env tvk true records tvk info =
      ({ info with toggled_on := (env.getKeyState tvk &&& kStateMaskToggled) != 0 },
       alistSet records info.physical_key info.logical_key,
       (if (alistFind records info.physical_key).isSome then
          [SynthesizeSimpleEvent kFlutterKeyEventTypeUp info.physical_key
            info.logical_key []]
        else []) ++
       [SynthesizeSimpleEvent kFlutterKeyEventTypeDown info.physical_key
         info.logical_key []]) := by
  simp only [syncToggledKey]
  rw [if_neg hpk, if_pos hct, if_pos (⟨trivial, trivial⟩ : True ∧ True),
    if_pos hmis]

theorem syncPressedKey_events (env : Env) (tvk : Nat) (w : Bool)
    (records : List (Nat × Nat)) (vk : Nat) (info : CriticalKey) :
    ∀ e ∈ (syncPressedKey env tvk w records vk info).2,
      e.physical = info.physical_key ∧ e.synthesized = true := by
  intro e he
  simp only [syncPressedKey] at he
  repeat' split at he
  all_goals
    simp only [List.mem_append, List.mem_singleton, List.not_mem_nil,
      false_or, or_false] at he
  all_goals first
    | (subst he; exact ⟨rfl, rfl⟩)
    | cases he
    | exact ⟨rfl, rfl⟩

theorem syncPressedKey_nodup (env : Env) (tvk : Nat) (w : Bool)
    (records : List (Nat × Nat)) (vk : Nat) (info : CriticalKey)
    (h : NodupKeys records) :
    NodupKeys (syncPressedKey env tvk w records vk info).1 := by
  simp only [syncPressedKey]
  repeat' split
  all_goals first
    | exact h
    | exact nodupKeys_set _ _ _ h
    | exact nodupKeys_erase _ _ h

theorem syncToggled_nil (env : Env) (tvk : Nat) (d : Bool)
    (records : List (Nat × Nat)) :
    SynchronizeCritialToggledStates env tvk d [] records = ([], records, []) :=
  rfl

theorem syncToggled_cons (env : Env) (tvk : Nat) (d : Bool) (vk : Nat)
    (info : CriticalKey) (rest : List (Nat × CriticalKey))
    (records : List (Nat × Nat)) :
    SynchronizeCritialToggledStates env tvk d ((vk, info) :: rest) records =
      ((vk, (syncToggledKey env tvk d records vk info).1) ::
        (SynchronizeCritialToggledStates env tvk d rest
          (syncToggledKey env tvk d records vk info).2.1).1,
       (SynchronizeCritialToggledStates env tvk d rest
         (syncToggledKey env tvk d records vk info).2.1).2.1,
       (syncToggledKey env tvk d records vk info).2.2 ++
        (SynchronizeCritialToggledStates env tvk d rest
          (syncToggledKey env tvk d records vk info).2.1).2.2) :=
  rfl

theorem syncPressed_nil (env : Env) (tvk : Nat) (w : Bool)
    (records : List (Nat × Nat)) :
    SynchronizeCritialPressedStates env tvk w [] records = (records, []) :=
  rfl

theorem syncPressed_cons (env : Env) (tvk : Nat) (w : Bool) (vk : Nat)
    (info : CriticalKey) (rest : List (Nat × CriticalKey))
    (records : List (Nat × Nat)) :
    SynchronizeCritialPressedStates env tvk w ((vk, info) :: rest) records =
      ((SynchronizeCritialPressedStates env tvk w rest
         (syncPressedKey env tvk w records vk info).1).1,
       (syncPressedKey env tvk w records vk info).2 ++
        (SynchronizeCritialPressedStates env tvk w rest
          (syncPressedKey env tvk w records vk info).1).2) :=
  rfl

theorem syncToggled_nodup (env : Env) (tvk : Nat) (d : Bool)
    (criticals : List (Nat × CriticalKey)) :
    ∀ records, NodupKeys records →
      NodupKeys (SynchronizeCritialToggledStates env tvk d criticals records).2.1 := by
  induction criticals with
  | nil =>
    intro records h
    rw [syncToggled_nil]
    exact h
  | cons q rest ih =>
    obtain ⟨vk, info⟩ := q
    intro records h
    rw [syncToggled_cons]
    exact ih _ (syncToggledKey_nodup _ _ _ _ _ _ h)

theorem syncPressed_nodup (env : Env) (tvk : Nat) (w : Bool)
    (criticals : List (Nat × CriticalKey)) :
    ∀ records, NodupKeys records →
      NodupKeys (SynchronizeCritialPressedStates env tvk w criticals records).1 := by
  induction criticals with
  | nil =>
    intro records h
    rw [syncPressed_nil]
    exact h
  | cons q rest ih =>
    obtain ⟨vk, info⟩ := q
    intro records h
    rw [syncPressed_cons]
    exact ih _ (syncPressedKey_nodup _ _ _ _ _ _ h)

theorem syncToggled_synthesized (env : Env) (tvk : Nat) (d : Bool)
    (criticals : List (Nat × CriticalKey)) :
    ∀ records e,
      e ∈ (SynchronizeCritialToggledStates env tvk d criticals records).2.2 →
      e.synthesized = true := by
  induction criticals with
  | nil =>
    intro records e he
    rw [syncToggled_nil] at he
    cases he
  | cons q rest ih =>
    obtain ⟨vk, info⟩ := q
    intro records e he
    rw [syncToggled_cons] at he
    rcases List.mem_append.mp he with h1 | h2
    · exact (syncToggledKey_events env tvk d records vk info e h1).2
    · exact ih _ e h2

theorem syncPressed_synthesized (env : Env) (tvk : Nat) (w : Bool)
    (criticals : List (Nat × CriticalKey)) :
    ∀ records e,
      e ∈ (SynchronizeCritialPressedStates env tvk w criticals records).2 →
      e.synthesized = true := by
  induction criticals with
  | nil =>
    intro records e he
    rw [syncPressed_nil] at he
    cases he
  | cons q rest ih =>
    obtain ⟨vk, info⟩ := q
    intro records e he
    rw [syncPressed_cons] at he
    rcases List.mem_append.mp he with h1 | h2
    · exact (syncPressedKey_events env tvk w records vk info e h1).2
    · exact ih _ e h2

theorem syncToggled_frame (env : Env) (tvk : Nat) (d : Bool)
    (criticals : List (Nat × CriticalKey)) (p : Nat)
    (h : ∀ q ∈ criticals, q.2.physical_key ≠ p) :
    ∀ records,
      alistFind (SynchronizeCritialToggledStates env tvk d criticals records).2.1 p =
        alistFind records p ∧
      ∀ e ∈ (SynchronizeCritialToggledStates env tvk d criticals records).2.2,
        e.physical ≠ p := by
  induction criticals with
  | nil =>
    intro records
    rw [syncToggled_nil]
    exact ⟨rfl, by intro e he; cases he⟩
  | cons q rest ih =>
    obtain ⟨vk, info⟩ := q
    intro records
    rw [syncToggled_cons]
    have hhd : info.physical_key ≠ p := h (vk, info) (by simp)
    have hrest : ∀ q2 ∈ rest, q2.2.physical_key ≠ p :=
      fun q2 hq2 => h q2 (by simp [hq2])
    obtain ⟨ih1, ih2⟩ := ih hrest ((syncToggledKey env tvk d records vk info).2.1)
    constructor
    · rw [ih1]
      exact syncToggledKey_records_ne env tvk d records vk info p (Ne.symm hhd)
    · intro e he
      rcases List.mem_append.mp he with h1 | h2
      · rw [(syncToggledKey_events env tvk d records vk info e h1).1]
        exact hhd
      · exact ih2 e h2

/-! ### Last-seen update laws -/

theorem updateLastSeen_find_self (criticals : List (Nat × CriticalKey))
    (virtual_key pk lk : Nat) (info : CriticalKey)
    (h : alistFind criticals virtual_key = some info) :
    alistFind (UpdateLastSeenCritialKey criticals virtual_key pk lk)
      virtual_key =
      some { info with physical_key := pk, logical_key := lk } := by
  induction criticals with
  | nil => simp [alistFind] at h
  | cons q rest ih =>
    obtain ⟨vk0, i0⟩ := q
    by_cases hv : vk0 = virtual_key
    · subst hv
      have hcap : i0 = info := by simpa [alistFind] using h
      subst hcap
      simp [UpdateLastSeenCritialKey, alistFind]
    · have h2 : alistFind rest virtual_key = some info := by
        simpa [alistFind, hv] using h
      simp [UpdateLastSeenCritialKey, hv, alistFind, ih h2]

theorem updateLastSeen_keys (criticals : List (Nat × CriticalKey))
    (virtual_key pk lk : Nat) :
    (UpdateLastSeenCritialKey criticals virtual_key pk lk).map Prod.fst =
      criticals.map Prod.fst := by
  induction criticals with
  | nil => rfl
  | cons q rest ih =>
    obtain ⟨vk0, i0⟩ := q
    by_cases hv : vk0 = virtual_key
    · simp [UpdateLastSeenCritialKey, hv]
    · simp [UpdateLastSeenCritialKey, hv, ih]

theorem updateLastSeen_mem_other (criticals : List (Nat × CriticalKey))
    (virtual_key pk lk : Nat) :
    ∀ q ∈ UpdateLastSeenCritialKey criticals virtual_key pk lk,
      q.1 ≠ virtual_key → q ∈ criticals := by
  induction criticals with
  | nil => intro q hq; cases hq
  | cons q0 rest ih =>
    obtain ⟨vk0, i0⟩ := q0
    intro q hq hne
    by_cases hv : vk0 = virtual_key
    · subst hv
      rw [show UpdateLastSeenCritialKey ((vk0, i0) :: rest) vk0 pk lk =
          (vk0, { i0 with physical_key := pk, logical_key := lk }) :: rest from
          by simp [UpdateLastSeenCritialKey]] at hq
      rcases List.mem_cons.mp hq with rfl | hq2
      · exact absurd rfl hne
      · exact List.mem_cons_of_mem _ hq2
    · rw [show UpdateLastSeenCritialKey ((vk0, i0) :: rest) virtual_key pk lk =
          (vk0, i0) :: UpdateLastSeenCritialKey rest virtual_key pk lk from
          by simp [UpdateLastSeenCritialKey, hv]] at hq
      rcases List.mem_cons.mp hq with rfl | hq2
      · exact List.mem_cons_self _ _
      · exact List.mem_cons_of_mem _ (ih q hq2 hne)

/-! ### Toggle-pass extraction for the target critical key -/

theorem syncToggled_extract (env : Env) (tvk : Nat)
    (criticals : List (Nat × CriticalKey)) (cap : CriticalKey)
    (hfind : alistFind criticals tvk = some cap)
    (hnodup : NodupKeys criticals)
    (hdist : ∀ q ∈ criticals, q.1 ≠ tvk →
      q.2.physical_key ≠ cap.physical_key)
    (hpk : cap.physical_key ≠ 0) (hct : cap.check_toggled = true)
    (hmis : ¬((!cap.toggled_on) =
      ((env.getKeyState tvk &&& kStateMaskToggled) != 0))) :
    ∀ records,
      alistFind (SynchronizeCritialToggledStates env tvk true criticals
          records).1 tvk =
        some { cap with
          toggled_on := (env.getKeyState tvk &&& kStateMaskToggled) != 0 } ∧
      alistFind (SynchronizeCritialToggledStates env tvk true criticals
          records).2.1 cap.physical_key = some cap.logical_key ∧
      (SynchronizeCritialToggledStates env tvk true criticals
          records).2.2.filter (fun e => e.physical == cap.physical_key) =
        (if (alistFind records cap.physical_key).isSome then
           [SynthesizeSimpleEvent kFlutterKeyEventTypeUp cap.physical_key
             cap.logical_key []]
         else []) ++
        [SynthesizeSimpleEvent kFlutterKeyEventTypeDown cap.physical_key
          cap.logical_key []] := by
  induction criticals with
  | nil => simp [alistFind] at hfind
  | cons q rest ih =>
    obtain ⟨vk0, i0⟩ := q
    have hnodup2 : vk0 ∉ rest.map Prod.fst ∧ NodupKeys rest := by
      simpa [NodupKeys] using hnodup
    intro records
    rw [syncToggled_cons]
    by_cases hv : vk0 = tvk
    · subst hv
      have hcap : i0 = cap := by simpa [alistFind] using hfind
      subst hcap
      simp only [syncToggledKey_target env vk0 records i0 hpk hct hmis]
      have hrestp : ∀ q2 ∈ rest, q2.2.physical_key ≠ i0.physical_key := by
        intro q2 hq2
        refine hdist q2 (List.mem_cons_of_mem _ hq2) ?_
        intro heq
        exact hnodup2.1 (heq ▸ List.mem_map_of_mem Prod.fst hq2)
      obtain ⟨f1, f2⟩ := syncToggled_frame env vk0 true rest i0.physical_key
        hrestp (alistSet records i0.physical_key i0.logical_key)
      refine ⟨by simp [alistFind], ?_, ?_⟩
      · rw [f1, alistFind_set_self]
      · rw [List.filter_append,
          filter_eq_nil_of
            ((SynchronizeCritialToggledStates env vk0 true rest
              (alistSet records i0.physical_key i0.logical_key)).2.2) _
            (fun e he => by
              have hne := f2 e he
              simpa using hne),
          List.append_nil]
        by_cases hs : (alistFind records i0.physical_key).isSome
        · simp [hs, SynthesizeSimpleEvent]
        · simp [hs, SynthesizeSimpleEvent]
    · have hfind2 : alistFind rest tvk = some cap := by
        simpa [alistFind, hv] using hfind
      have hd0 : i0.physical_key ≠ cap.physical_key :=
        hdist (vk0, i0) (List.mem_cons_self _ _) hv
      have hdist2 : ∀ q2 ∈ rest, q2.1 ≠ tvk →
          q2.2.physical_key ≠ cap.physical_key :=
        fun q2 hq2 hne => hdist q2 (List.mem_cons_of_mem _ hq2) hne
      obtain ⟨g1, g2, g3⟩ := ih hfind2 hnodup2.2 hdist2
        ((syncToggledKey env tvk true records vk0 i0).2.1)
      have hrec : alistFind (syncToggledKey env tvk true records vk0 i0).2.1
          cap.physical_key = alistFind records cap.physical_key :=
        syncToggledKey_records_ne env tvk true records vk0 i0 cap.physical_key
          (Ne.symm hd0)
      refine ⟨?_, g2, ?_⟩
      · simpa [alistFind, hv] using g1
      · rw [List.filter_append,
          filter_eq_nil_of ((syncToggledKey env tvk true records vk0 i0).2.2) _
            (fun e he => by
              have hph := (syncToggledKey_events env tvk true records vk0 i0
                e he).1
              simp [hph, hd0]),
          List.nil_append, g3, hrec]

/-! ### KeyboardHookImpl structure lemmas -/

theorem KeyboardHookImpl_eq_none (env : Env) (s : HandlerState)
    (key scancode action character : Nat) (extended was_down : Bool)
    (h : classify env s.pressingRecords key scancode action character extended
      was_down = none) :
    KeyboardHookImpl env s key scancode action character extended was_down =
      absorbedOutput s := by
  unfold KeyboardHookImpl
  rw [h]

theorem KeyboardHookImpl_eq_sentinel (env : Env) (s : HandlerState)
    (key scancode action character : Nat) (extended was_down : Bool)
    (c : Classified)
    (hc : classify env s.pressingRecords key scancode action character extended
      was_down = some c)
    (h : c.result_logical_key = VK_PROCESSKEY) :
    KeyboardHookImpl env s key scancode action character extended was_down =
      absorbedOutput s := by
  unfold KeyboardHookImpl
  rw [hc]
  simp [h]

theorem KeyboardHookImpl_eq_dispatch (env : Env) (s : HandlerState)
    (key scancode action character : Nat) (extended was_down : Bool)
    (c : Classified)
    (hc : classify env s.pressingRecords key scancode action character extended
      was_down = some c)
    (h : c.result_logical_key ≠ VK_PROCESSKEY) :
    KeyboardHookImpl env s key scancode action character extended was_down =
      dispatchPrimary env s key (GetPhysicalKey env scancode extended) c := by
  unfold KeyboardHookImpl
  rw [hc]
  simp [h]

theorem classify_eq_none_dup_down (env : Env) (records : List (Nat × Nat))
    (key scancode action character : Nat) (extended : Bool)
    (ha : action = WM_KEYDOWN ∨ action = WM_SYSKEYDOWN)
    (hs : (alistFind records (GetPhysicalKey env scancode extended)).isSome) :
    classify env records key scancode action character extended false = none := by
  have hb : (action == WM_KEYDOWN || action == WM_SYSKEYDOWN) = true := by
    rcases ha with rfl | rfl <;> simp
  rcases hfound : alistFind records (GetPhysicalKey env scancode extended)
    with _ | v
  · rw [hfound] at hs
    cases hs
  · simp [classify, hfound, hb]

theorem classify_eq_none_stale_up (env : Env) (records : List (Nat × Nat))
    (key scancode action character : Nat) (extended was_down : Bool)
    (ha1 : action ≠ WM_KEYDOWN) (ha2 : action ≠ WM_SYSKEYDOWN)
    (hn : alistFind records (GetPhysicalKey env scancode extended) = none) :
    classify env records key scancode action character extended was_down =
      none := by
  have hb : (action == WM_KEYDOWN || action == WM_SYSKEYDOWN) = false := by
    simp [ha1, ha2]
  simp [classify, hn, hb]

/-! ### Claim C3 -/

/-- C3: a non-repeat down transition on a physical key already recorded
down, and an up transition on a physical key not recorded down, are both
absorbed: KeyboardHookImpl dispatches zero events, leaves the whole
handler state (press-state table, critical-key registry, response
counter, ledger) unchanged, and invokes the caller-supplied callback
exactly once with handled = true (the meaning of HookResult.absorbed). -/
theorem absorbed_inputs_silent (env : Env) (s : HandlerState)
    (key scancode action character : Nat) (extended was_down : Bool)
    (h : ((action = WM_KEYDOWN ∨ action = WM_SYSKEYDOWN) ∧
           (alistFind s.pressingRecords
             (GetPhysicalKey env scancode extended)).isSome ∧
           was_down = false) ∨
         (action ≠ WM_KEYDOWN ∧ action ≠ WM_SYSKEYDOWN ∧
           alistFind s.pressingRecords
             (GetPhysicalKey env scancode extended) = none)) :
    KeyboardHookImpl env s key scancode action character extended was_down =
      absorbedOutput s := by
  apply KeyboardHookImpl_eq_none
  rcases h with ⟨ha, hs, hw⟩ | ⟨ha1, ha2, hn⟩
  · subst hw
    exact classify_eq_none_dup_down env s.pressingRecords key scancode action
      character extended ha hs
  · exact classify_eq_none_stale_up env s.pressingRecords key scancode action
      character extended was_down ha1 ha2 hn

/-! ### Claim C5 -/

/-- C5: any input whose resulting logical id is the IME sentinel
VK_PROCESSKEY — a fresh down resolving to the sentinel, a repeat or an up
whose recorded logical id is the sentinel — is ignored entirely: no event
is dispatched, the state is unchanged, and the callback is invoked once
with handled = true. -/
theorem ime_sentinel_ignored (env : Env) (s : HandlerState)
    (key scancode action character : Nat) (extended was_down : Bool)
    (c : Classified)
    (hc : classify env s.pressingRecords key scancode action character extended
      was_down = some c)
    (hres : c.result_logical_key = VK_PROCESSKEY) :
    KeyboardHookImpl env s key scancode action character extended was_down =
      absorbedOutput s := by
  unfold KeyboardHookImpl
  rw [hc]
  simp [hres]

/-! ### Claim C1 -/

/-- C1: over one processed raw input the press-state table behaves as a
map keyed by physical key: key uniqueness is preserved; a primary Down
creates the entry for the physical key with the freshly resolved logical
id; a Repeat leaves the entry holding the logical id recorded at the down
transition and puts exactly that id on the event (never re-resolved); a
primary Up removes the entry; an absorbed or IME-filtered input changes
nothing. -/
theorem press_state_table_step (env : Env) (s : HandlerState)
    (key scancode action character : Nat) (extended was_down : Bool)
    (hnodup : NodupKeys s.pressingRecords)
    (hvals : ∀ p v, alistFind s.pressingRecords p = some v → v ≠ 0)
    (hlog : GetLogicalKey env key extended scancode ≠ 0) :
    PressStateStepProperty env s key scancode action character extended
      was_down := by
  unfold PressStateStepProperty
  refine ⟨?_, ?_, ?_⟩
  · rcases hcls : classify env s.pressingRecords key scancode action character
      extended was_down with _ | c
    · rw [KeyboardHookImpl_eq_none env s key scancode action character extended
        was_down hcls]
      exact hnodup
    · by_cases hres : c.result_logical_key = VK_PROCESSKEY
      · rw [KeyboardHookImpl_eq_sentinel env s key scancode action character
          extended was_down c hcls hres]
        exact hnodup
      · rw [KeyboardHookImpl_eq_dispatch env s key scancode action character
          extended was_down c hcls hres]
        have h1 : NodupKeys
            (dpToggle env s key (GetPhysicalKey env scancode extended) c).2.1 :=
          syncToggled_nodup env key (c.type == kFlutterKeyEventTypeDown)
            (UpdateLastSeenCritialKey s.critical_keys key
              (GetPhysicalKey env scancode extended) c.result_logical_key)
            s.pressingRecords hnodup
        have h2 : NodupKeys
            (dpPressed env s key (GetPhysicalKey env scancode extended) c).1 :=
          syncPressed_nodup env key (c.type != kFlutterKeyEventTypeRepeat)
            (dpToggle env s key (GetPhysicalKey env scancode extended) c).1
            (dpToggle env s key (GetPhysicalKey env scancode extended) c).2.1 h1
        simp only [dispatchPrimary]
        split
        · exact nodupKeys_set _ _ _ h2
        · exact nodupKeys_erase _ _ h2
  · intro c hc hres
    rcases classify_cases env s.pressingRecords key scancode action character
        extended was_down c hc with
      ⟨ht, hfind, hr, he, _⟩ | ⟨ht, v, hfind, hr, he, _⟩ |
      ⟨ht, v, hfind, _, hr, he, _⟩
    · refine ⟨?_, ?_, ?_⟩
      · intro _
        rw [KeyboardHookImpl_eq_dispatch env s key scancode action character
          extended was_down c hc hres]
        simp only [dispatchPrimary]
        rw [he, if_pos hlog]
        exact alistFind_set_self _ _ _
      · intro hrep
        rw [ht] at hrep
        exact absurd hrep (by simp)
      · intro hup
        rw [ht] at hup
        exact absurd hup (by simp)
    · refine ⟨?_, ?_, ?_⟩
      · intro hdown
        rw [ht] at hdown
        exact absurd hdown (by simp)
      · intro _
        have hv0 : v ≠ 0 := hvals _ _ hfind
        constructor
        · rw [hr]
          exact hfind
        · rw [KeyboardHookImpl_eq_dispatch env s key scancode action character
            extended was_down c hc hres]
          simp only [dispatchPrimary]
          rw [he, if_pos hv0, hr]
          exact alistFind_set_self _ _ _
      · intro hup
        rw [ht] at hup
        exact absurd hup (by simp)
    · refine ⟨?_, ?_, ?_⟩
      · intro hdown
        rw [ht] at hdown
        exact absurd hdown (by simp)
      · intro hrep
        rw [ht] at hrep
        exact absurd hrep (by simp)
      · intro _
        rw [KeyboardHookImpl_eq_dispatch env s key scancode action character
          extended was_down c hc hres]
        simp only [dispatchPrimary]
        rw [he, if_neg (by simp)]
        exact alistFind_erase_self _ _
  · intro h
    rcases h with hnone | ⟨c, hc, hres⟩
    · rw [KeyboardHookImpl_eq_none env s key scancode action character extended
        was_down hnone]
      rfl
    · rw [KeyboardHookImpl_eq_sentinel env s key scancode action character
        extended was_down c hc hres]
      rfl

/-! ### Claim C2 -/

/-- C2: on a caps-lock keydown classified as a primary Down whose tracked
toggle, after the anticipatory flip, disagrees with the true OS toggle
bit, the toggle pass synthesizes exactly (an Up if caps lock is recorded
pressed, then) a Down for the caps-lock physical key, those synthesized
events precede the primary Down in the dispatched sequence, caps lock
ends recorded as pressed in the press-state table, and the tracked toggle
flag ends equal to the true OS toggle bit. -/
theorem capslock_toggle_resync (env : Env) (s : HandlerState)
    (scancode action character : Nat) (extended was_down : Bool)
    (cap : CriticalKey)
    (ha : action = WM_KEYDOWN ∨ action = WM_SYSKEYDOWN)
    (hno : alistFind s.pressingRecords
      (GetPhysicalKey env scancode extended) = none)
    (hlk0 : GetLogicalKey env VK_CAPITAL extended scancode ≠ 0)
    (hlkp : GetLogicalKey env VK_CAPITAL extended scancode ≠ VK_PROCESSKEY)
    (hpk : GetPhysicalKey env scancode extended ≠ 0)
    (hcap : alistFind s.critical_keys VK_CAPITAL = some cap)
    (hct : cap.check_toggled = true)
    (hnodup : NodupKeys s.critical_keys)
    (hdist : ∀ q ∈ s.critical_keys, q.1 ≠ VK_CAPITAL →
      q.2.physical_key ≠ GetPhysicalKey env scancode extended)
    (hmis : ¬((!cap.toggled_on) =
      ((env.getKeyState VK_CAPITAL &&& kStateMaskToggled) != 0))) :
    CapsResyncProperty env s scancode action character extended was_down := by
  have hb : (action == WM_KEYDOWN || action == WM_SYSKEYDOWN) = true := by
    rcases ha with rfl | rfl <;> simp
  have hc : classify env s.pressingRecords VK_CAPITAL scancode action character
      extended was_down =
      some { type := kFlutterKeyEventTypeDown,
             result_logical_key := GetLogicalKey env VK_CAPITAL extended
               scancode,
             eventual_logical_record := GetLogicalKey env VK_CAPITAL extended
               scancode,
             character_bytes := ConvertUtf32ToUtf8_ (env.undeadChar character) }
      := by
    simp [classify, hno, hb]
  have himpl := KeyboardHookImpl_eq_dispatch env s VK_CAPITAL scancode action
    character extended was_down _ hc hlkp
  have hfind1 := updateLastSeen_find_self s.critical_keys VK_CAPITAL
    (GetPhysicalKey env scancode extended)
    (GetLogicalKey env VK_CAPITAL extended scancode) cap hcap
  have hnodup1 : NodupKeys (UpdateLastSeenCritialKey s.critical_keys VK_CAPITAL
      (GetPhysicalKey env scancode extended)
      (GetLogicalKey env VK_CAPITAL extended scancode)) := by
    unfold NodupKeys
    rw [updateLastSeen_keys]
    exact hnodup
  have hdist1 : ∀ q ∈ UpdateLastSeenCritialKey s.critical_keys VK_CAPITAL
      (GetPhysicalKey env scancode extended)
      (GetLogicalKey env VK_CAPITAL extended scancode),
      q.1 ≠ VK_CAPITAL →
      q.2.physical_key ≠
        ({ cap with
            physical_key := GetPhysicalKey env scancode extended,
            logical_key := GetLogicalKey env VK_CAPITAL extended scancode
          } : CriticalKey).physical_key := by
    intro q hq hne
    exact hdist q (updateLastSeen_mem_other s.critical_keys VK_CAPITAL
      (GetPhysicalKey env scancode extended)
      (GetLogicalKey env VK_CAPITAL extended scancode) q hq hne) hne
  obtain ⟨e1, e2, e3⟩ := syncToggled_extract env VK_CAPITAL
    (UpdateLastSeenCritialKey s.critical_keys VK_CAPITAL
      (GetPhysicalKey env scancode extended)
      (GetLogicalKey env VK_CAPITAL extended scancode))
    ({ cap with
        physical_key := GetPhysicalKey env scancode extended,
        logical_key := GetLogicalKey env VK_CAPITAL extended scancode })
    hfind1 hnodup1 hdist1 hpk hct hmis s.pressingRecords
  unfold CapsResyncProperty
  rw [himpl]
  refine ⟨(dpPressed env s VK_CAPITAL (GetPhysicalKey env scancode extended)
    { type := kFlutterKeyEventTypeDown,
      result_logical_key := GetLogicalKey env VK_CAPITAL extended scancode,
      eventual_logical_record := GetLogicalKey env VK_CAPITAL extended scancode,
      character_bytes := ConvertUtf32ToUtf8_ (env.undeadChar character) }).2,
    ?_, ?_, ?_, ?_⟩
  · simp [dispatchPrimary, dpToggle, primaryEvent]
  · simpa [dpToggle] using e3
  · simp only [dispatchPrimary]
    rw [if_pos hlk0]
    exact alistFind_set_self _ _ _
  · refine ⟨({ physical_key := GetPhysicalKey env scancode extended,
               logical_key := GetLogicalKey env VK_CAPITAL extended scancode,
               check_pressed := cap.check_pressed,
               check_toggled := cap.check_toggled,
               toggled_on :=
                 (env.getKeyState VK_CAPITAL &&& kStateMaskToggled) != 0 } :
               CriticalKey), ?_, ?_⟩
    · simp only [dispatchPrimary]
      simpa [dpToggle] using e1
    · rfl

/-! ### KeyboardHook structure lemmas -/

theorem KeyboardHook_state (env : Env) (s : HandlerState)
    (key scancode action character : Nat) (extended was_down : Bool) :
    (KeyboardHook env s key scancode action character extended was_down).state =
      (KeyboardHookImpl env s key scancode action character extended
        was_down).state := by
  simp only [KeyboardHook]
  split <;> rfl

theorem KeyboardHook_result (env : Env) (s : HandlerState)
    (key scancode action character : Nat) (extended was_down : Bool) :
    (KeyboardHook env s key scancode action character extended was_down).result =
      (KeyboardHookImpl env s key scancode action character extended
        was_down).result := by
  simp only [KeyboardHook]
  split <;> rfl

theorem KeyboardHookImpl_events_of_absorbed (env : Env) (s : HandlerState)
    (key scancode action character : Nat) (extended was_down : Bool)
    (h : (KeyboardHookImpl env s key scancode action character extended
      was_down).result = .absorbed) :
    (KeyboardHookImpl env s key scancode action character extended
      was_down).events = [] := by
  rcases hcls : classify env s.pressingRecords key scancode action character
    extended was_down with _ | c
  · rw [KeyboardHookImpl_eq_none env s key scancode action character extended
      was_down hcls]
    rfl
  · by_cases hres : c.result_logical_key = VK_PROCESSKEY
    · rw [KeyboardHookImpl_eq_sentinel env s key scancode action character
        extended was_down c hcls hres]
      rfl
    · rw [KeyboardHookImpl_eq_dispatch env s key scancode action character
        extended was_down c hcls hres] at h
      exact absurd h (by simp [dispatchPrimary])

/-! ### Claim C4 -/

/-- C4: the outer entry point guard: when KeyboardHookImpl dispatched
nothing for a raw input, KeyboardHook sends exactly one neutral event
with physical id 0, logical id 0 and a null acknowledgment callback (in
particular every absorbed input yields exactly the neutral event); when
anything was dispatched, the event sequence is passed through unchanged
and contains no neutral record. -/
theorem neutral_event_guard (env : Env) (s : HandlerState)
    (key scancode action character : Nat) (extended was_down : Bool) :
    (((KeyboardHookImpl env s key scancode action character extended
        was_down).events = [] →
      (KeyboardHook env s key scancode action character extended
        was_down).events = [emptyEvent] ∧
      emptyEvent.physical = 0 ∧ emptyEvent.logical = 0 ∧
      emptyEvent.callback = none) ∧
     ((KeyboardHookImpl env s key scancode action character extended
        was_down).events ≠ [] →
      (KeyboardHook env s key scancode action character extended
        was_down).events =
        (KeyboardHookImpl env s key scancode action character extended
          was_down).events ∧
      emptyEvent ∉ (KeyboardHook env s key scancode action character extended
        was_down).events) ∧
     ((KeyboardHookImpl env s key scancode action character extended
        was_down).result = .absorbed →
      (KeyboardHook env s key scancode action character extended
        was_down).events = [emptyEvent])) := by
  refine ⟨?_, ?_, ?_⟩
  · intro h
    refine ⟨?_, rfl, rfl, rfl⟩
    simp only [KeyboardHook]
    rw [h]
    rfl
  · intro h
    have hev : (KeyboardHook env s key scancode action character extended
        was_down).events =
        (KeyboardHookImpl env s key scancode action character extended
          was_down).events := by
      simp only [KeyboardHook]
      rw [if_neg (by simpa [List.isEmpty_iff] using h)]
    refine ⟨hev, ?_⟩
    rw [hev]
    intro hmem
    rcases hcls : classify env s.pressingRecords key scancode action character
      extended was_down with _ | c
    · rw [KeyboardHookImpl_eq_none env s key scancode action character extended
        was_down hcls] at h
      exact h rfl
    · by_cases hres : c.result_logical_key = VK_PROCESSKEY
      · rw [KeyboardHookImpl_eq_sentinel env s key scancode action character
          extended was_down c hcls hres] at h
        exact h rfl
      · rw [KeyboardHookImpl_eq_dispatch env s key scancode action character
          extended was_down c hcls hres] at hmem
        simp only [dispatchPrimary, List.mem_append, List.mem_singleton]
          at hmem
        rcases hmem with (h1 | h2) | h3
        · have := syncToggled_synthesized env key
            (c.type == kFlutterKeyEventTypeDown)
            (UpdateLastSeenCritialKey s.critical_keys key
              (GetPhysicalKey env scancode extended) c.result_logical_key)
            s.pressingRecords emptyEvent (by simpa [dpToggle] using h1)
          simp [emptyEvent] at this
        · have := syncPressed_synthesized env key
            (c.type != kFlutterKeyEventTypeRepeat)
            (dpToggle env s key (GetPhysicalKey env scancode extended) c).1
            (dpToggle env s key (GetPhysicalKey env scancode extended) c).2.1
            emptyEvent (by simpa [dpPressed] using h2)
          simp [emptyEvent] at this
        · simp [emptyEvent, primaryEvent] at h3
  · intro h
    have hev := KeyboardHookImpl_events_of_absorbed env s key scancode action
      character extended was_down h
    simp only [KeyboardHook]
    rw [hev]
    rfl

/-! ### Claim C7 -/

/-- C7: response ids: the counter starts at the non-zero value 1 and the
ledger starts empty; as long as the counter has not exhausted 64 bits,
every dispatched primary event gets the strictly larger fresh id
counter + 1, which is non-zero, is not in the ledger before dispatch and
is in it afterwards, and the ledger invariant is preserved by every
processed input; acknowledging a response id removes exactly its ledger
entry, keeps every other entry, and invokes the original caller callback
exactly once. -/
theorem response_ledger_behavior :
    (∀ env : Env, LedgerInv (initialState env) ∧
      (initialState env).response_id = 1) ∧
    (∀ (env : Env) (s : HandlerState) (key scancode action character : Nat)
        (extended was_down : Bool),
      LedgerInv s → s.response_id + 1 < 2 ^ 64 →
      LedgerInv (KeyboardHook env s key scancode action character extended
        was_down).state ∧
      (∀ rid, (KeyboardHook env s key scancode action character extended
          was_down).result = .dispatched rid →
        rid = s.response_id + 1 ∧ rid ≠ 0 ∧ s.response_id < rid ∧
        rid ∉ s.pending_responses ∧
        rid ∈ (KeyboardHook env s key scancode action character extended
          was_down).state.pending_responses)) ∧
    (∀ (s : HandlerState) (rid : Nat),
      (HandleResponse s rid).2 = 1 ∧
      rid ∉ (HandleResponse s rid).1.pending_responses ∧
      (∀ i ∈ s.pending_responses, i ≠ rid →
        i ∈ (HandleResponse s rid).1.pending_responses)) := by
  refine ⟨?_, ?_, ?_⟩
  · intro env
    refine ⟨⟨le_refl 1, ?_⟩, rfl⟩
    intro i hi
    cases hi
  · intro env s key scancode action character extended was_down hinv hov
    rw [KeyboardHook_state, KeyboardHook_result]
    rcases hcls : classify env s.pressingRecords key scancode action character
      extended was_down with _ | c
    · rw [KeyboardHookImpl_eq_none env s key scancode action character extended
        was_down hcls]
      exact ⟨hinv, fun rid h => by cases h⟩
    · by_cases hres : c.result_logical_key = VK_PROCESSKEY
      · rw [KeyboardHookImpl_eq_sentinel env s key scancode action character
          extended was_down c hcls hres]
        exact ⟨hinv, fun rid h => by cases h⟩
      · rw [KeyboardHookImpl_eq_dispatch env s key scancode action character
          extended was_down c hcls hres]
        have hmod : (s.response_id + 1) % 2 ^ 64 = s.response_id + 1 :=
          Nat.mod_eq_of_lt hov
        constructor
        · constructor
          · simp only [dispatchPrimary, hmod]
            omega
          · intro i hi
            simp only [dispatchPrimary, hmod] at hi ⊢
            rcases List.mem_append.mp hi with h1 | h2
            · exact le_trans (hinv.2 i h1) (Nat.le_succ _)
            · simp only [List.mem_singleton] at h2
              omega
        · intro rid hr
          simp only [dispatchPrimary, hmod] at hr
          cases hr
          refine ⟨rfl, by omega, by omega, ?_, ?_⟩
          · intro hmem
            have := hinv.2 _ hmem
            omega
          · simp only [dispatchPrimary]
            rw [hmod]
            exact List.mem_append.mpr (Or.inr (List.mem_singleton.mpr rfl))
  · intro s rid
    refine ⟨rfl, ?_, ?_⟩
    · intro hmem
      unfold HandleResponse at hmem
      simp at hmem
    · intro i hi hne
      unfold HandleResponse
      simp [hi, hne]

/-! ### Character codec laws -/

theorem _GetBit_eq (ch start stop : Nat) :
    _GetBit ch start stop = (ch >>> stop) % 2 ^ (start - stop) := by
  unfold _GetBit
  rw [Nat.one_shiftLeft, Nat.and_pow_two_sub_one_eq_mod]

theorem lor_add_192 : ∀ x < 64, 192 ||| x = 192 + x := by decide

theorem lor_add_128 : ∀ x < 64, 128 ||| x = 128 + x := by decide

theorem lor_add_224 : ∀ x < 32, 224 ||| x = 224 + x := by decide

theorem lor_add_240 : ∀ x < 16, 240 ||| x = 240 + x := by decide

theorem land_63 (x : Nat) : x &&& 63 = x % 64 := by
  have h := Nat.and_pow_two_sub_one_eq_mod x 6
  norm_num at h
  exact h

theorem convertChar32_eq_std (ch : Nat) (h : ch ≤ 0x10FFFF) :
    ConvertChar32ToUtf8 ch = utf8EncodeStd ch := by
  unfold ConvertChar32ToUtf8 utf8EncodeStd
  by_cases h1 : ch ≤ 0x7F
  · rw [if_pos h1, if_pos (by omega)]
  · rw [if_neg h1, if_neg (show ¬ ch < 0x80 by omega)]
    by_cases h2 : ch ≤ 0x7FF
    · rw [if_pos h2, if_pos (by omega)]
      simp only [_GetBit_eq, Nat.shiftRight_eq_div_pow, land_63,
        List.cons.injEq, and_true]
      norm_num
      constructor
      · rw [Nat.mod_eq_of_lt (show ch / 64 < 32 by omega),
          lor_add_192 (ch / 64) (by omega)]
      · rw [lor_add_128 (ch % 64) (by omega)]
    · rw [if_neg h2, if_neg (show ¬ ch < 0x800 by omega)]
      by_cases h3 : ch ≤ 0xFFFF
      · rw [if_pos h3, if_pos (by omega)]
        simp only [_GetBit_eq, Nat.shiftRight_eq_div_pow, land_63,
          List.cons.injEq, and_true]
        norm_num
        refine ⟨?_, ?_, ?_⟩
        · rw [Nat.mod_eq_of_lt (show ch / 4096 < 16 by omega),
            lor_add_224 (ch / 4096) (by omega)]
        · rw [lor_add_128 (ch / 64 % 64) (by omega)]
        · rw [lor_add_128 (ch % 64) (by omega)]
      · rw [if_neg h3, if_neg (show ¬ ch < 0x10000 by omega)]
        simp only [_GetBit_eq, Nat.shiftRight_eq_div_pow, land_63,
          List.cons.injEq, and_true]
        norm_num
        refine ⟨?_, ?_, ?_, ?_⟩
        · rw [Nat.mod_eq_of_lt (show ch / 262144 < 8 by omega),
            lor_add_240 (ch / 262144) (by omega)]
        · rw [lor_add_128 (ch / 4096 % 64) (by omega)]
        · rw [lor_add_128 (ch / 64 % 64) (by omega)]
        · rw [lor_add_128 (ch % 64) (by omega)]

theorem convertUtf32Buf_length (ch : Nat) :
    (ConvertUtf32ToUtf8_ ch).length + 1 ≤ kCharacterCacheSize := by
  unfold ConvertUtf32ToUtf8_ ConvertChar32ToUtf8 kCharacterCacheSize
  repeat' split
  all_goals simp

/-! ### Claim C6 -/

/-- C6: character payloads: ConvertChar32ToUtf8 agrees with the standard
UTF-8 encoding on every code point up to 0x10FFFF (in particular 0x41
encodes to the single byte 0x41 and 0x1F600 to F0 9F 98 80); the cached
payload plus its null terminator never exceeds the 8-byte cache; every
classified primary Up event carries an empty character payload and every
classified Down or Repeat carries the UTF-8 bytes of the dead-key
resolved code point; the primary event record carries exactly those
bytes. -/
theorem character_payload :
    (∀ ch, ch ≤ 0x10FFFF → ConvertChar32ToUtf8 ch = utf8EncodeStd ch) ∧
    ConvertChar32ToUtf8 0x41 = [0x41] ∧
    ConvertChar32ToUtf8 0x1F600 = [0xF0, 0x9F, 0x98, 0x80] ∧
    (∀ ch, (ConvertUtf32ToUtf8_ ch).length + 1 ≤ kCharacterCacheSize) ∧
    (∀ (env : Env) (records : List (Nat × Nat))
        (key scancode action character : Nat) (extended was_down : Bool)
        (c : Classified),
      classify env records key scancode action character extended was_down =
        some c →
      (c.type = kFlutterKeyEventTypeUp → c.character_bytes = []) ∧
      (c.type ≠ kFlutterKeyEventTypeUp →
        c.character_bytes = ConvertUtf32ToUtf8_ (env.undeadChar character))) ∧
    (∀ (s : HandlerState) (physical_key : Nat) (c : Classified),
      (primaryEvent s physical_key c).character = c.character_bytes) := by
  refine ⟨convertChar32_eq_std, by decide, by decide, convertUtf32Buf_length,
    ?_, fun s pk c => rfl⟩
  intro env records key scancode action character extended was_down c hc
  rcases classify_cases env records key scancode action character extended
      was_down c hc with
    ⟨ht, _, _, _, hb⟩ | ⟨ht, v, _, _, _, hb⟩ | ⟨ht, v, _, _, _, _, hb⟩
  · constructor
    · intro hup
      rw [ht] at hup
      exact absurd hup (by simp)
    · intro _
      exact hb
  · constructor
    · intro hup
      rw [ht] at hup
      exact absurd hup (by simp)
    · intro _
      exact hb
  · constructor
    · intro _
      exact hb
    · intro hne
      rw [ht] at hne
      exact absurd rfl hne

/-! ### Claim C8 -/

/-- C8 counterexample: at engine construction, before any input has been
processed, the caps-lock critical key record already carries a nonzero
physical key id (the resolver output for the OS-mapped scan code), not
the unseen value 0 — so the identifiers are not populated lazily on
first observation. -/
theorem critical_key_identifiers_not_lazy :
    (alistFind (initialState envSimple).critical_keys VK_CAPITAL).map
      CriticalKey.physical_key = some windowsPlane ∧
    windowsPlane ≠ 0 := by
  decide

/-- C8 amended: critical-key identifiers are populated eagerly at
construction — InitCriticalKeys fills every record through the resolvers
applied to the OS-mapped scan code, with the toggled flag taken from the
true OS toggle state exactly for toggle-checked keys — and both
identifiers are overwritten on every observation of that virtual key in
the input stream, not only the first. -/
theorem critical_key_identifiers_eager (env : Env) :
    (alistFind (initialState env).critical_keys VK_CAPITAL =
        some (createCheckedKey env VK_CAPITAL false true true) ∧
      alistFind (initialState env).critical_keys VK_NUMLOCK =
        some (createCheckedKey env VK_NUMLOCK true true true) ∧
      alistFind (initialState env).critical_keys VK_SCROLL =
        some (createCheckedKey env VK_SCROLL false true true) ∧
      alistFind (initialState env).critical_keys VK_LSHIFT =
        some (createCheckedKey env VK_LSHIFT false true false) ∧
      alistFind (initialState env).critical_keys VK_RSHIFT =
        some (createCheckedKey env VK_RSHIFT false true false) ∧
      alistFind (initialState env).critical_keys VK_LCONTROL =
        some (createCheckedKey env VK_LCONTROL false true false) ∧
      alistFind (initialState env).critical_keys VK_RCONTROL =
        some (createCheckedKey env VK_RCONTROL true true false)) ∧
    (∀ (virtual_key : Nat) (extended check_pressed check_toggled : Bool),
      (createCheckedKey env virtual_key extended check_pressed
          check_toggled).physical_key =
        GetPhysicalKey env (env.mapVirtualKey virtual_key) extended ∧
      (createCheckedKey env virtual_key extended check_pressed
          check_toggled).logical_key =
        GetLogicalKey env virtual_key extended
          (env.mapVirtualKey virtual_key) ∧
      (createCheckedKey env virtual_key extended check_pressed
          check_toggled).toggled_on =
        (check_toggled &&
          ((env.getKeyState virtual_key &&& kStateMaskToggled) != 0))) ∧
    (∀ (criticals : List (Nat × CriticalKey)) (virtual_key pk lk : Nat)
        (info : CriticalKey),
      alistFind criticals virtual_key = some info →
      alistFind (UpdateLastSeenCritialKey criticals virtual_key pk lk)
        virtual_key =
        some { info with physical_key := pk, logical_key := lk }) := by
  refine ⟨⟨rfl, rfl, rfl, rfl, rfl, rfl, rfl⟩, ?_, ?_⟩
  · intro virtual_key extended check_pressed check_toggled
    refine ⟨rfl, rfl, ?_⟩
    cases check_toggled <;> simp [createCheckedKey]
  · intro criticals virtual_key pk lk info h
    exact updateLastSeen_find_self criticals virtual_key pk lk info h

/-! ### Claim C9 -/

/-- C9 counterexample: a repeat-flagged down transition whose physical
key has no entry in the press-state table but whose virtual code is the
IME sentinel emits no event at all — in particular no primary Down — so
the claim fails as stated for sentinel-resolving inputs. -/
theorem fresh_down_sentinel_absorbed :
    alistFind (initialState envSimple).pressingRecords
      (GetPhysicalKey envSimple 0x1C false) = none ∧
    (KeyboardHookImpl envSimple (initialState envSimple) VK_PROCESSKEY 0x1C
      WM_KEYDOWN 0 false true).events = [] := by
  decide

/-- C9 amended: a down transition whose physical key has no press-state
entry, and whose freshly resolved logical id is not the IME sentinel, is
dispatched as a primary event of type Down (never Repeat) carrying the
freshly resolved logical id — even when the platform marked the input as
a repeat (was_down true). -/
theorem fresh_down_emits_down (env : Env) (s : HandlerState)
    (key scancode action character : Nat) (extended was_down : Bool)
    (ha : action = WM_KEYDOWN ∨ action = WM_SYSKEYDOWN)
    (hno : alistFind s.pressingRecords
      (GetPhysicalKey env scancode extended) = none)
    (hsent : GetLogicalKey env key extended scancode ≠ VK_PROCESSKEY) :
    ∃ pre,
      (KeyboardHookImpl env s key scancode action character extended
        was_down).result = .dispatched ((s.response_id + 1) % 2 ^ 64) ∧
      (KeyboardHookImpl env s key scancode action character extended
        was_down).events =
        pre ++ [{ type := kFlutterKeyEventTypeDown,
                  physical := GetPhysicalKey env scancode extended,
                  logical := GetLogicalKey env key extended scancode,
                  character := ConvertUtf32ToUtf8_ (env.undeadChar character),
                  synthesized := false,
                  callback := some ((s.response_id + 1) % 2 ^ 64) }] := by
  have hb : (action == WM_KEYDOWN || action == WM_SYSKEYDOWN) = true := by
    rcases ha with rfl | rfl <;> simp
  have hc : classify env s.pressingRecords key scancode action character
      extended was_down =
      some { type := kFlutterKeyEventTypeDown,
             result_logical_key := GetLogicalKey env key extended scancode,
             eventual_logical_record := GetLogicalKey env key extended scancode,
             character_bytes := ConvertUtf32ToUtf8_ (env.undeadChar character) }
      := by
    simp [classify, hno, hb]
  rw [KeyboardHookImpl_eq_dispatch env s key scancode action character extended
    was_down _ hc hsent]
  refine ⟨(dpToggle env s key (GetPhysicalKey env scancode extended)
      { type := kFlutterKeyEventTypeDown,
        result_logical_key := GetLogicalKey env key extended scancode,
        eventual_logical_record := GetLogicalKey env key extended scancode,
        character_bytes := ConvertUtf32ToUtf8_ (env.undeadChar character)
      }).2.2 ++
    (dpPressed env s key (GetPhysicalKey env scancode extended)
      { type := kFlutterKeyEventTypeDown,
        result_logical_key := GetLogicalKey env key extended scancode,
        eventual_logical_record := GetLogicalKey env key extended scancode,
        character_bytes := ConvertUtf32ToUtf8_ (env.undeadChar character)
      }).2, rfl, ?_⟩
  simp [dispatchPrimary, primaryEvent]

/-! ### Claim C10 -/

/-- C10: the assert guarding the final removal from the press-state
table can fail: after a caps-lock down, an up processed while GetKeyState
still reports the pressed bit (0x81) is classified as a primary Up, but
the pressed-state synchronization pass has already erased the entry
(recorded pressed, expected released after inversion), so the final
removal finds nothing and the assert fires (assert_ok = false). -/
theorem up_erase_assert_fails :
    (classify envCaps81 sCaps.pressingRecords VK_CAPITAL 0x3A WM_KEYUP 0 false
        true).map Classified.type = some kFlutterKeyEventTypeUp ∧
    (KeyboardHookImpl envCaps81 sCaps VK_CAPITAL 0x3A WM_KEYUP 0 false
      true).assert_ok = false := by
  decide

/-! ### Witnesses -/

/-- C1 witness: the press-state step property at a concrete fresh keydown
of virtual key 0x41 from the initial state. -/
theorem press_state_table_step_witness :
    NodupKeys (initialState envSimple).pressingRecords ∧
    (∀ p v, alistFind (initialState envSimple).pressingRecords p = some v →
      v ≠ 0) ∧
    GetLogicalKey envSimple 0x41 false 0x1E ≠ 0 ∧
    PressStateStepProperty envSimple (initialState envSimple) 0x41 0x1E
      WM_KEYDOWN 97 false false :=
  ⟨by decide, fun p v h => by simp [initialState, alistFind] at h, by decide,
   press_state_table_step envSimple (initialState envSimple) 0x41 0x1E
     WM_KEYDOWN 97 false false (by decide)
     (fun p v h => by simp [initialState, alistFind] at h) (by decide)⟩

/-- C2 witness: the caps-lock resynchronization property at a concrete
caps-lock keydown from the initial state under envSimple, where the OS
toggle bit stays 0 so the anticipatory flip creates a mismatch. -/
theorem capslock_toggle_resync_witness :
    (WM_KEYDOWN = WM_KEYDOWN ∨ WM_KEYDOWN = WM_SYSKEYDOWN) ∧
    alistFind (initialState envSimple).pressingRecords
      (GetPhysicalKey envSimple 0x3A false) = none ∧
    GetLogicalKey envSimple VK_CAPITAL false 0x3A ≠ 0 ∧
    GetLogicalKey envSimple VK_CAPITAL false 0x3A ≠ VK_PROCESSKEY ∧
    GetPhysicalKey envSimple 0x3A false ≠ 0 ∧
    alistFind (initialState envSimple).critical_keys VK_CAPITAL =
      some (createCheckedKey envSimple VK_CAPITAL false true true) ∧
    (createCheckedKey envSimple VK_CAPITAL false true true).check_toggled =
      true ∧
    NodupKeys (initialState envSimple).critical_keys ∧
    (∀ q ∈ (initialState envSimple).critical_keys, q.1 ≠ VK_CAPITAL →
      q.2.physical_key ≠ GetPhysicalKey envSimple 0x3A false) ∧
    ¬((!(createCheckedKey envSimple VK_CAPITAL false true true).toggled_on) =
      ((envSimple.getKeyState VK_CAPITAL &&& kStateMaskToggled) != 0)) ∧
    CapsResyncProperty envSimple (initialState envSimple) 0x3A WM_KEYDOWN 0
      false false :=
  ⟨Or.inl rfl, by decide, by decide, by decide, by decide, by decide,
   by decide, by decide, by decide, by decide,
   capslock_toggle_resync envSimple (initialState envSimple) 0x3A WM_KEYDOWN 0
     false false (createCheckedKey envSimple VK_CAPITAL false true true)
     (Or.inl rfl) (by decide) (by decide) (by decide) (by decide) (by decide)
     (by decide) (by decide) (by decide) (by decide)⟩

/-- C3 witness: a concrete duplicate non-repeat down of virtual key 0x41
while its physical key is already recorded down is absorbed with the
state unchanged. -/
theorem absorbed_inputs_silent_witness :
    (((WM_KEYDOWN = WM_KEYDOWN ∨ WM_KEYDOWN = WM_SYSKEYDOWN) ∧
       (alistFind sA.pressingRecords
         (GetPhysicalKey envSimple 0x1E false)).isSome ∧
       (false : Bool) = false) ∨
     (WM_KEYDOWN ≠ WM_KEYDOWN ∧ WM_KEYDOWN ≠ WM_SYSKEYDOWN ∧
       alistFind sA.pressingRecords
         (GetPhysicalKey envSimple 0x1E false) = none)) ∧
    KeyboardHookImpl envSimple sA 0x41 0x1E WM_KEYDOWN 97 false false =
      absorbedOutput sA :=
  ⟨Or.inl ⟨Or.inl rfl, by decide, rfl⟩,
   absorbed_inputs_silent envSimple sA 0x41 0x1E WM_KEYDOWN 97 false false
     (Or.inl ⟨Or.inl rfl, by decide, rfl⟩)⟩

/-- C4 witness: at a concrete absorbed duplicate down, KeyboardHookImpl
emits nothing and KeyboardHook emits exactly the neutral zero-identifier
event with a null callback. -/
theorem neutral_event_guard_witness :
    (KeyboardHookImpl envSimple sA 0x41 0x1E WM_KEYDOWN 97 false
      false).events = [] ∧
    ((KeyboardHook envSimple sA 0x41 0x1E WM_KEYDOWN 97 false false).events =
      [emptyEvent] ∧
     emptyEvent.physical = 0 ∧ emptyEvent.logical = 0 ∧
     emptyEvent.callback = none) :=
  ⟨by decide,
   (neutral_event_guard envSimple sA 0x41 0x1E WM_KEYDOWN 97 false false).1
     (by decide)⟩

/-- C5 witness: a concrete fresh keydown reporting the IME sentinel
virtual code is classified with the sentinel logical id and ignored
entirely. -/
theorem ime_sentinel_ignored_witness :
    classify envSimple (initialState envSimple).pressingRecords VK_PROCESSKEY
      0x1C WM_KEYDOWN 0 false false =
      some ({ type := kFlutterKeyEventTypeDown,
              result_logical_key := VK_PROCESSKEY,
              eventual_logical_record := VK_PROCESSKEY,
              character_bytes := [] } : Classified) ∧
    ({ type := kFlutterKeyEventTypeDown,
       result_logical_key := VK_PROCESSKEY,
       eventual_logical_record := VK_PROCESSKEY,
       character_bytes := [] } : Classified).result_logical_key =
      VK_PROCESSKEY ∧
    KeyboardHookImpl envSimple (initialState envSimple) VK_PROCESSKEY 0x1C
      WM_KEYDOWN 0 false false = absorbedOutput (initialState envSimple) :=
  ⟨by decide, by decide,
   ime_sentinel_ignored envSimple (initialState envSimple) VK_PROCESSKEY 0x1C
     WM_KEYDOWN 0 false false
     ({ type := kFlutterKeyEventTypeDown,
        result_logical_key := VK_PROCESSKEY,
        eventual_logical_record := VK_PROCESSKEY,
        character_bytes := [] } : Classified) (by decide) (by decide)⟩

/-- C6 witness: the codec equals the standard encoding at the concrete
code point 0x41. -/
theorem character_payload_witness :
    0x41 ≤ 0x10FFFF ∧ ConvertChar32ToUtf8 0x41 = utf8EncodeStd 0x41 :=
  ⟨by decide, character_payload.1 0x41 (by decide)⟩

/-- C7 witness: the ledger step facts at a concrete keydown from the
initial state. -/
theorem response_ledger_behavior_witness :
    LedgerInv (initialState envSimple) ∧
    (initialState envSimple).response_id + 1 < 2 ^ 64 ∧
    (LedgerInv (KeyboardHook envSimple (initialState envSimple) 0x41 0x1E
        WM_KEYDOWN 97 false false).state ∧
     (∀ rid, (KeyboardHook envSimple (initialState envSimple) 0x41 0x1E
          WM_KEYDOWN 97 false false).result = .dispatched rid →
       rid = (initialState envSimple).response_id + 1 ∧ rid ≠ 0 ∧
       (initialState envSimple).response_id < rid ∧
       rid ∉ (initialState envSimple).pending_responses ∧
       rid ∈ (KeyboardHook envSimple (initialState envSimple) 0x41 0x1E
          WM_KEYDOWN 97 false false).state.pending_responses)) :=
  ⟨⟨by decide, fun i hi => by simp [initialState] at hi⟩, by decide,
   response_ledger_behavior.2.1 envSimple (initialState envSimple) 0x41 0x1E
     WM_KEYDOWN 97 false false
     ⟨by decide, fun i hi => by simp [initialState] at hi⟩ (by decide)⟩

/-- C8 witness: the last-seen update overwrites the caps-lock record at
concrete identifiers 5 and 7. -/
theorem critical_key_identifiers_eager_witness :
    alistFind [(VK_CAPITAL, createCheckedKey envSimple VK_CAPITAL false true
      true)] VK_CAPITAL =
      some (createCheckedKey envSimple VK_CAPITAL false true true) ∧
    alistFind (UpdateLastSeenCritialKey [(VK_CAPITAL, createCheckedKey
      envSimple VK_CAPITAL false true true)] VK_CAPITAL 5 7) VK_CAPITAL =
      some { createCheckedKey envSimple VK_CAPITAL false true true with
             physical_key := 5, logical_key := 7 } :=
  ⟨by decide,
   (critical_key_identifiers_eager envSimple).2.2
     [(VK_CAPITAL, createCheckedKey envSimple VK_CAPITAL false true true)]
     VK_CAPITAL 5 7 (createCheckedKey envSimple VK_CAPITAL false true true)
     (by decide)⟩

/-- C9 witness: a concrete repeat-flagged down of virtual key 0x41 with
no press-state entry dispatches a primary Down with the fresh logical
id. -/
theorem fresh_down_emits_down_witness :
    (WM_KEYDOWN = WM_KEYDOWN ∨ WM_KEYDOWN = WM_SYSKEYDOWN) ∧
    alistFind (initialState envSimple).pressingRecords
      (GetPhysicalKey envSimple 0x1E false) = none ∧
    GetLogicalKey envSimple 0x41 false 0x1E ≠ VK_PROCESSKEY ∧
    (∃ pre,
      (KeyboardHookImpl envSimple (initialState envSimple) 0x41 0x1E
        WM_KEYDOWN 97 false true).result =
        .dispatched (((initialState envSimple).response_id + 1) % 2 ^ 64) ∧
      (KeyboardHookImpl envSimple (initialState envSimple) 0x41 0x1E
        WM_KEYDOWN 97 false true).events =
        pre ++ [{ type := kFlutterKeyEventTypeDown,
                  physical := GetPhysicalKey envSimple 0x1E false,
                  logical := GetLogicalKey envSimple 0x41 false 0x1E,
                  character :=
                    ConvertUtf32ToUtf8_ (envSimple.undeadChar 97),
                  synthesized := false,
                  callback := some (((initialState envSimple).response_id + 1)
                    % 2 ^ 64) }]) :=
  ⟨Or.inl rfl, by decide, by decide,
   fresh_down_emits_down envSimple (initialState envSimple) 0x41 0x1E
     WM_KEYDOWN 97 false true (Or.inl rfl) (by decide) (by decide)⟩

end KeyboardEmbedder
